import Mathlib

/-!
Shallow embedding of the `google_calendar-new-or-updated-event-instant`
event source (src/components/google_calendar/sources/new-or-updated-event-instant/
new-or-updated-event-instant.mjs).

JavaScript values that can be `undefined`, `null` or a string are modelled by
`JVal`.  The key-value persistence store is a function from the composed string
keys the source builds (e.g. `calendarId + ".nextSyncToken"`) to `JVal`.  The
external Google Calendar client is an oracle (`ApiEnv`); its `list` endpoint is
indexed by a call counter so that successive page requests may answer
differently.  `Date.parse` and `parseInt` are modelled as abstract
`String → Option Int` functions, `none` standing for `NaN`.  Every network call
and every emission is recorded in a trace so that the spec's "performs no
renewal", "no fetch occurs", "new channel established before old one is torn
down" sentences become statements about the trace.
-/

/-- A JavaScript value as it appears in this component: `undefined`, `null`,
or a string. -/
inductive JVal where
  | undef
  | null
  | str (s : String)
  deriving DecidableEq, Repr

/-- JavaScript truthiness for `JVal`: only a non-empty string is truthy. -/
def JVal.truthy : JVal → Bool
  | .str s => !s.isEmpty
  | _ => false

/-- JavaScript string coercion (as used by template literals and by
`parseInt`'s argument coercion): `undefined` renders as `"undefined"`,
`null` as `"null"`. -/
def JVal.toDisplay : JVal → String
  | .undef => "undefined"
  | .null => "null"
  | .str s => s

/-- A calendar event as delivered in the `items` of a `list` response
(a `ChangeItem`): the fields the source reads.  Timestamps are kept as the
raw strings the API delivers; `Date.parse` is applied to them explicitly. -/
structure GEvent where
  id : String
  summary : String
  created : String
  updated : String
  status : String
  deriving DecidableEq, Repr

/-- The metadata object built by `generateMeta`.  `ts = none` models `NaN`. -/
structure EventMeta where
  id : String
  summary : String
  ts : Option Int
  deriving DecidableEq, Repr

/-- The `data` of a `watch` RPC response: the fields the source persists. -/
structure WatchResp where
  id : String
  resourceId : String
  expiration : String
  deriving DecidableEq, Repr

/-- One response of the `list` RPC. `nextPageToken`/`nextSyncToken` may be
absent (`undef`). -/
structure ListResp where
  status : Nat
  items : List GEvent
  nextPageToken : JVal
  nextSyncToken : JVal
  deriving DecidableEq, Repr

/-- The external Google Calendar client, as an oracle.  `list` takes the index
of the call (how many `list` calls happened before it in this invocation) so
that successive page requests can be answered differently; its remaining
arguments are the `calendarId`, `syncToken` and `pageToken` of the request.
`fullSync` takes `some calendarId`, or `none` when the source passes the
undefined `this.calendarId`. -/
structure ApiEnv where
  watch : String → WatchResp
  fullSync : Option String → JVal
  stop : String → String → Nat
  list : Nat → String → JVal → JVal → ListResp

/-- One recorded external call. -/
inductive Call where
  | watch (calendarId : String)
  | fullSync (calendarId : Option String)
  | stop (channelId resourceId : String)
  | list (calendarId : String) (syncToken pageToken : JVal)
  deriving DecidableEq, Repr

/-- The persistence store: composed string keys to values. -/
def Db := String → JVal

/-- Embeds `this.db.get(key)`. -/
def Db.get (db : Db) (k : String) : JVal := db k

/-- Embeds `this.db.set(key, v)`. -/
def Db.set (db : Db) (k : String) (v : JVal) : Db :=
  fun q => if q = k then v else db q

/-- Embeds `_isNewEvent(event)`: parse `created` and `updated` with `Date.parse` and
compare; if either is `NaN` every comparison with it is false, hence the
result is `false`. -/
def _isNewEvent (parse : String → Option Int) (e : GEvent) : Bool :=
  match parse e.created, parse e.updated with
  | some c, some u => (u - c).natAbs ≤ 2000
  | _, _ => false

/-- Embeds `isEventRelevant(event)`: `!this.newOnly || this._isNewEvent(event)`. -/
def isEventRelevant (parse : String → Option Int) (newOnly : Bool) (e : GEvent) : Bool :=
  !newOnly || _isNewEvent parse e

/-- Embeds `generateMeta(event)`: id is the template literal `id + "-" + ts` where
`ts = Date.parse(updated)` (`NaN` renders as `"NaN"`). -/
def generateMeta (parse : String → Option Int) (e : GEvent) : EventMeta :=
  let ts := parse e.updated
  { id := e.id ++ "-" ++ (match ts with | some t => toString t | none => "NaN")
    summary := e.summary
    ts := ts }

/-- The body of the fetch loop at lines 224-234: filter by `isEventRelevant`,
skip items whose `status` is `"cancelled"`, emit the rest paired with their
`generateMeta` metadata, in order. -/
def projectEvents (parse : String → Option Int) (newOnly : Bool)
    (events : List GEvent) : List (GEvent × EventMeta) :=
  ((events.filter (isEventRelevant parse newOnly)).filter
      (fun e => e.status != "cancelled")).map
    (fun e => (e, generateMeta parse e))

/-- Embeds `makeWatchRequest()`: for each calendar, `watch`, then `fullSync`, then
persist the four fields.  Returns the new store and the trace of calls. -/
def makeWatchRequest (env : ApiEnv) : List String → Db → Db × List Call
  | [], db => (db, [])
  | c :: rest, db =>
    let data := env.watch c
    let tok := env.fullSync (some c)
    let db := db.set (c ++ ".nextSyncToken") tok
    let db := db.set (c ++ ".channelId") (.str data.id)
    let db := db.set (c ++ ".resourceId") (.str data.resourceId)
    let db := db.set (c ++ ".expiration") (.str data.expiration)
    let res := makeWatchRequest env rest db
    (res.1, .watch c :: .fullSync (some c) :: res.2)

/-- Embeds `stopWatchRequest()`: for each calendar, read the persisted `channelId`
and `resourceId`; if both are truthy, call `stop`; on status 204 clear the
four persisted fields (set them to `null`), otherwise leave them untouched. -/
def stopWatchRequest (env : ApiEnv) : List String → Db → Db × List Call
  | [], db => (db, [])
  | c :: rest, db =>
    let idv := db.get (c ++ ".channelId")
    let ridv := db.get (c ++ ".resourceId")
    match idv, ridv with
    | .str i, .str r =>
      if !i.isEmpty && !r.isEmpty then
        let status := env.stop i r
        let db' :=
          if status = 204 then
            ((((db.set (c ++ ".nextSyncToken") .null).set
                (c ++ ".channelId") .null).set
                (c ++ ".resourceId") .null).set
                (c ++ ".expiration") .null)
          else db
        let res := stopWatchRequest env rest db'
        (res.1, .stop i r :: res.2)
      else
        stopWatchRequest env rest db
    | _, _ => stopWatchRequest env rest db

/-- The timer branch of `run` (lines 153-167): read the first calendar's
persisted `expiration`, `parseInt` it, and when `now + intervalSeconds*1000`
exceeds it call `makeWatchRequest` then `stopWatchRequest`.  A `NaN`
expiration (`pInt` returns `none`) makes the comparison false.
`this.calendarIds[0]` is `undefined` for an empty list, which the template
literal renders as `"undefined"`. -/
def runTimer (pInt : String → Option Int) (env : ApiEnv) (calendarIds : List String)
    (db : Db) (now intervalSeconds : Int) : Db × List Call :=
  let intervalMs := intervalSeconds * 1000
  let cal0 := match calendarIds.head? with
    | some c => c
    | none => "undefined"
  let expiration := db.get (cal0 ++ ".expiration")
  match pInt expiration.toDisplay with
  | none => (db, [])
  | some t =>
    if now + intervalMs > t then
      let r1 := makeWatchRequest env calendarIds db
      let r2 := stopWatchRequest env calendarIds r1.1
      (r2.1, r1.2 ++ r2.2)
    else (db, [])

/-- Result of one pass of the per-calendar pagination loop: the final value of
`nextSyncToken` (which line 237 persists), the calls made, the emissions, and
the next value of the global `list`-call counter. -/
structure PageResult where
  token : JVal
  calls : List Call
  emits : List (GEvent × EventMeta)
  nextIdx : Nat

/-- The `while (!nextSyncToken)` loop at lines 205-235 for one calendar.
`syncToken` is read once before the loop and passed on every request;
`pageToken` starts as `null`.  A 410 status performs
`fullSync(this.calendarId)` — and `this.calendarId` is `undefined` (the prop
is `calendarIds`), hence the `none` argument — and breaks.  Otherwise the
response's items are filtered and emitted, and the loop stops exactly when
the response's `nextSyncToken` is truthy.  `fuel` bounds the number of
iterations; `none` means the loop was still running when fuel ran out. -/
def paginate (parse : String → Option Int) (newOnly : Bool) (env : ApiEnv)
    (calendarId : String) (syncToken : JVal) :
    Nat → Nat → JVal → Option PageResult
  | 0, _, _ => none
  | fuel + 1, idx, pageToken =>
    let r := env.list idx calendarId syncToken pageToken
    if r.status = 410 then
      some ⟨env.fullSync none,
        [.list calendarId syncToken pageToken, .fullSync none], [], idx + 1⟩
    else
      let emitted := projectEvents parse newOnly r.items
      if r.nextSyncToken.truthy then
        some ⟨r.nextSyncToken, [.list calendarId syncToken pageToken], emitted, idx + 1⟩
      else
        match paginate parse newOnly env calendarId syncToken fuel (idx + 1) r.nextPageToken with
        | none => none
        | some res =>
          some ⟨res.token, .list calendarId syncToken pageToken :: res.calls,
            emitted ++ res.emits, res.nextIdx⟩

/-- The `for (const calendarId of this.calendarIds)` loop at lines 201-238:
for each calendar read its persisted `nextSyncToken`, run the pagination
loop, and persist the resulting token.  Also returns the trace of `db.set`
operations performed by line 237. -/
def processCalendars (parse : String → Option Int) (newOnly : Bool) (env : ApiEnv)
    (fuel : Nat) :
    List String → Db → Nat →
      Option (Db × List Call × List (GEvent × EventMeta) × List (String × JVal))
  | [], db, _ => some (db, [], [], [])
  | c :: rest, db, idx =>
    let syncToken := db.get (c ++ ".nextSyncToken")
    match paginate parse newOnly env c syncToken fuel idx .null with
    | none => none
    | some res =>
      let db' := db.set (c ++ ".nextSyncToken") res.token
      match processCalendars parse newOnly env fuel rest db' res.nextIdx with
      | none => none
      | some (db'', calls, emits, sets) =>
        some (db'', res.calls ++ calls, res.emits ++ emits,
          (c ++ ".nextSyncToken", res.token) :: sets)

/-- Outcome of the notification branch of `run`: the store, the calls, the
emissions, and the `db.set` operations of the fetch loop. -/
structure RunOutcome where
  db : Db
  calls : List Call
  emits : List (GEvent × EventMeta)
  sets : List (String × JVal)

/-- The notification branch of `run` (lines 168-239): collect the persisted
channel ids of all configured calendars; if the `x-goog-channel-id` header is
not among them, log and return.  Otherwise switch on the
`x-goog-resource-state` header: only `"exists"` proceeds to the fetch loop;
`"not_exists"`, `"sync"` and anything else (including a missing header)
return.  `chHdr`/`stHdr` are the two header values. -/
def runNotification (parse : String → Option Int) (newOnly : Bool) (env : ApiEnv)
    (calendarIds : List String) (db : Db) (chHdr stHdr : JVal) (fuel : Nat) :
    Option RunOutcome :=
  let channelIds := calendarIds.map (fun c => db.get (c ++ ".channelId"))
  if !(channelIds.contains chHdr) then
    some ⟨db, [], [], []⟩
  else
    match stHdr with
    | .str "exists" =>
      match processCalendars parse newOnly env fuel calendarIds db 0 with
      | none => none
      | some (db', calls, emits, sets) => some ⟨db', calls, emits, sets⟩
    | .str "not_exists" => some ⟨db, [], [], []⟩
    | .str "sync" => some ⟨db, [], [], []⟩
    | _ => some ⟨db, [], [], []⟩

/-!
Helper development: injectivity of the decimal rendering used by the
`generateMeta` template literal (`toString : Int → String`, which is core's
`Nat.repr`-based rendering), and cancellation lemmas for string append, used
to reason about the composed store keys.
-/

/-- Value of a decimal digit character; 10 for anything else. -/
def digitVal (c : Char) : Nat :=
  if c = '0' then 0 else if c = '1' then 1 else if c = '2' then 2 else
  if c = '3' then 3 else if c = '4' then 4 else if c = '5' then 5 else
  if c = '6' then 6 else if c = '7' then 7 else if c = '8' then 8 else
  if c = '9' then 9 else 10

theorem digitVal_digitChar {d : Nat} (h : d < 10) :
    digitVal (Nat.digitChar d) = d := by
  interval_cases d <;> decide

/-- Decimal value of a digit string, most significant digit first. -/
def valChars (l : List Char) : Nat := l.foldl (fun a c => 10 * a + digitVal c) 0

theorem toDigitsCore_acc (b : Nat) :
    ∀ (fuel n : Nat) (acc : List Char),
      Nat.toDigitsCore b fuel n acc = Nat.toDigitsCore b fuel n [] ++ acc := by
  intro fuel
  induction fuel with
  | zero => intro n acc; simp [Nat.toDigitsCore]
  | succ f ih =>
    intro n acc
    simp only [Nat.toDigitsCore]
    by_cases h : n / b = 0
    · simp [h]
    · simp only [h, if_false]
      rw [ih (n / b) _, ih (n / b) [Nat.digitChar (n % b)], List.append_assoc]
      rfl

theorem valChars_toDigitsCore :
    ∀ (fuel n : Nat), n < fuel → valChars (Nat.toDigitsCore 10 fuel n []) = n := by
  intro fuel
  induction fuel with
  | zero => omega
  | succ f ih =>
    intro n hn
    simp only [Nat.toDigitsCore]
    by_cases h : n / 10 = 0
    · have hlt : n < 10 := by omega
      simp [h, valChars, Nat.mod_eq_of_lt hlt, digitVal_digitChar hlt]
    · have hge : 10 ≤ n := by
        rcases Nat.lt_or_ge n 10 with h10 | h10
        · exact absurd (Nat.div_eq_of_lt h10) h
        · exact h10
      have hdiv : n / 10 < f := by
        have h1 : n / 10 < n := Nat.div_lt_self (by omega) (by omega)
        omega
      simp only [h, if_false]
      rw [toDigitsCore_acc]
      unfold valChars
      rw [List.foldl_append]
      have := ih (n / 10) hdiv
      unfold valChars at this
      rw [this]
      simp [digitVal_digitChar (Nat.mod_lt n (by omega))]
      omega

theorem natRepr_injective : Function.Injective Nat.repr := by
  intro m n h
  have hd : (Nat.toDigits 10 m) = (Nat.toDigits 10 n) := by
    have := congrArg String.data h
    simpa [Nat.repr, List.asString] using this
  have hm := valChars_toDigitsCore (m + 1) m (Nat.lt_succ_self m)
  have hn := valChars_toDigitsCore (n + 1) n (Nat.lt_succ_self n)
  unfold Nat.toDigits at hd
  rw [← hm, ← hn, hd]

theorem toDigitsCore_head :
    ∀ (fuel n : Nat) (acc : List Char), n < fuel →
      ∃ j rest, j < 10 ∧ Nat.toDigitsCore 10 fuel n acc = Nat.digitChar j :: rest := by
  intro fuel
  induction fuel with
  | zero => omega
  | succ f ih =>
    intro n acc hn
    simp only [Nat.toDigitsCore]
    by_cases h : n / 10 = 0
    · exact ⟨n % 10, acc, Nat.mod_lt n (by omega), by simp [h]⟩
    · have hdiv : n / 10 < f := by
        have h1 : n / 10 < n := Nat.div_lt_self (by omega) (by omega)
        omega
      simpa [h] using ih (n / 10) (Nat.digitChar (n % 10) :: acc) hdiv

theorem digitChar_ne_dash {j : Nat} (h : j < 10) : Nat.digitChar j ≠ '-' := by
  interval_cases j <;> decide

theorem string_data_append (a b : String) : (a ++ b).data = a.data ++ b.data := rfl

theorem intToString_injective : Function.Injective (toString : Int → String) := by
  intro a b h
  cases a with
  | ofNat m =>
    cases b with
    | ofNat n =>
      have : Nat.repr m = Nat.repr n := h
      exact congrArg Int.ofNat (natRepr_injective this)
    | negSucc n =>
      exfalso
      have hd := congrArg String.data h
      obtain ⟨j, rest, hj, he⟩ := toDigitsCore_head (m + 1) m [] (Nat.lt_succ_self m)
      have : (Nat.repr m).data = Nat.digitChar j :: rest := by
        simpa [Nat.repr, Nat.toDigits, List.asString] using he
      rw [show (toString (Int.ofNat m)) = Nat.repr m from rfl] at hd
      rw [show (toString (Int.negSucc n)) = "-" ++ Nat.repr (n + 1) from rfl] at hd
      rw [string_data_append, this] at hd
      have : Nat.digitChar j = '-' := by
        have : ("-" : String).data = ['-'] := rfl
        simp [this] at hd
        exact hd.1
      exact digitChar_ne_dash hj this
  | negSucc m =>
    cases b with
    | ofNat n =>
      exfalso
      have hd := congrArg String.data h
      obtain ⟨j, rest, hj, he⟩ := toDigitsCore_head (n + 1) n [] (Nat.lt_succ_self n)
      have hrn : (Nat.repr n).data = Nat.digitChar j :: rest := by
        simpa [Nat.repr, Nat.toDigits, List.asString] using he
      rw [show (toString (Int.negSucc m)) = "-" ++ Nat.repr (m + 1) from rfl] at hd
      rw [show (toString (Int.ofNat n)) = Nat.repr n from rfl] at hd
      rw [string_data_append, hrn] at hd
      have : Nat.digitChar j = '-' := by
        have hne : ("-" : String).data = ['-'] := rfl
        simp [hne] at hd
        exact hd.1.symm
      exact digitChar_ne_dash hj this
    | negSucc n =>
      have hd := congrArg String.data h
      rw [show (toString (Int.negSucc m)) = "-" ++ Nat.repr (m + 1) from rfl] at hd
      rw [show (toString (Int.negSucc n)) = "-" ++ Nat.repr (n + 1) from rfl] at hd
      rw [string_data_append, string_data_append] at hd
      have hne : ("-" : String).data = ['-'] := rfl
      rw [hne] at hd
      have : (Nat.repr (m + 1)).data = (Nat.repr (n + 1)).data := by
        simpa using hd
      have : Nat.repr (m + 1) = Nat.repr (n + 1) := by
        cases hm : Nat.repr (m + 1)
        cases hn2 : Nat.repr (n + 1)
        simp_all
      have h2 := natRepr_injective this
      exact congrArg Int.negSucc (by omega)

theorem string_data_inj {a b : String} (h : a.data = b.data) : a = b := by
  cases a; cases b; exact congrArg String.mk h

theorem string_append_left_cancel {s t1 t2 : String} (h : s ++ t1 = s ++ t2) :
    t1 = t2 := by
  have hd := congrArg String.data h
  rw [string_data_append, string_data_append] at hd
  exact string_data_inj (List.append_cancel_left hd)

theorem string_append_right_cancel {s1 s2 t : String} (h : s1 ++ t = s2 ++ t) :
    s1 = s2 := by
  have hd := congrArg String.data h
  rw [string_data_append, string_data_append] at hd
  exact string_data_inj (List.append_cancel_right hd)

/-- A concrete `Date.parse`/`parseInt` oracle used by witnesses: a finite
table of decimal strings. -/
def parseTable (s : String) : Option Int :=
  if s = "0" then some 0 else if s = "1" then some 1 else
  if s = "3" then some 3 else if s = "5" then some 5 else
  if s = "7" then some 7 else if s = "1000" then some 1000 else
  if s = "2000" then some 2000 else if s = "2001" then some 2001 else none

/-- C4: for every ChangeItem with `status == "cancelled"`, projection never
yields an EmittedEvent (nothing is emitted for it), regardless of the
`newOnly` relevance flag's value. -/
theorem cancelled_never_emitted (parse : String → Option Int) (newOnly : Bool)
    (events : List GEvent) (e : GEvent) (m : EventMeta)
    (hst : e.status = "cancelled") :
    (e, m) ∉ projectEvents parse newOnly events := by
  intro hmem
  simp only [projectEvents, List.mem_map, List.mem_filter] at hmem
  obtain ⟨e', ⟨-, hne⟩, heq⟩ := hmem
  have he : e' = e := congrArg Prod.fst heq
  rw [he, hst] at hne
  simp at hne

/-- Witness for C4 at a concrete cancelled item. -/
theorem cancelled_never_emitted_witness :
    ((⟨"ev", "s", "c", "u", "cancelled"⟩ : GEvent).status = "cancelled")
    ∧ ((⟨"ev", "s", "c", "u", "cancelled"⟩ : GEvent), (⟨"x", "y", none⟩ : EventMeta))
        ∉ projectEvents (fun _ => none) false [⟨"ev", "s", "c", "u", "cancelled"⟩] :=
  ⟨rfl, cancelled_never_emitted (fun _ => none) false _ _ _ rfl⟩

/-- C5: for every item whose timestamps parse, relevance with `newOnly` false
is always true; with `newOnly` true it is true iff the absolute difference of
the parsed `updated` and `created` timestamps is at most 2000 ms (boundary
inclusive). -/
theorem relevance_iff (parse : String → Option Int) (e : GEvent) (cu uu : Int)
    (hc : parse e.created = some cu) (hu : parse e.updated = some uu) :
    isEventRelevant parse false e = true
    ∧ (isEventRelevant parse true e = true ↔ (uu - cu).natAbs ≤ 2000) := by
  constructor
  · simp [isEventRelevant]
  · simp [isEventRelevant, _isNewEvent, hc, hu]

/-- Witness for C5: a 2000 ms gap is relevant under `newOnly`, a 2001 ms gap
is not. -/
theorem relevance_iff_witness :
    (parseTable "0" = some 0 ∧ parseTable "2000" = some 2000
      ∧ parseTable "2001" = some 2001)
    ∧ (isEventRelevant parseTable false ⟨"a", "s", "0", "2000", "confirmed"⟩ = true
        ∧ (isEventRelevant parseTable true ⟨"a", "s", "0", "2000", "confirmed"⟩ = true
            ↔ ((2000 : Int) - 0).natAbs ≤ 2000))
    ∧ (isEventRelevant parseTable true ⟨"a", "s", "0", "2001", "confirmed"⟩ = true
        ↔ ((2001 : Int) - 0).natAbs ≤ 2000) :=
  ⟨⟨rfl, rfl, rfl⟩,
    relevance_iff parseTable ⟨"a", "s", "0", "2000", "confirmed"⟩ 0 2000 rfl rfl,
    (relevance_iff parseTable ⟨"a", "s", "0", "2001", "confirmed"⟩ 0 2001 rfl rfl).2⟩

/-- C6: dedupe ids built by `generateMeta` agree for identical
`(id, updatedAt)` pairs, and differ for the same id when the `updatedAt`
values parse to different timestamps. -/
theorem dedupe_id_deterministic (parse : String → Option Int) (e1 e2 : GEvent)
    (hid : e1.id = e2.id) :
    (e1.updated = e2.updated →
      (generateMeta parse e1).id = (generateMeta parse e2).id)
    ∧ (∀ t1 t2, parse e1.updated = some t1 → parse e2.updated = some t2 →
        t1 ≠ t2 → (generateMeta parse e1).id ≠ (generateMeta parse e2).id) := by
  constructor
  · intro hu
    simp [generateMeta, hid, hu]
  · intro t1 t2 h1 h2 hne heq
    simp only [generateMeta, h1, h2] at heq
    rw [hid] at heq
    exact hne (intToString_injective (string_append_left_cancel heq))

/-- Witness for C6: same `(id, updatedAt)` gives the same dedupe id; parsing
to 5 versus 7 gives different dedupe ids. -/
theorem dedupe_id_deterministic_witness :
    ((⟨"a", "s", "c", "5", "confirmed"⟩ : GEvent).id
        = (⟨"a", "z", "c", "5", "confirmed"⟩ : GEvent).id
      ∧ (⟨"a", "s", "c", "5", "confirmed"⟩ : GEvent).updated
        = (⟨"a", "z", "c", "5", "confirmed"⟩ : GEvent).updated
      ∧ parseTable "5" = some 5 ∧ parseTable "7" = some 7 ∧ (5 : Int) ≠ 7)
    ∧ (generateMeta parseTable ⟨"a", "s", "c", "5", "confirmed"⟩).id
        = (generateMeta parseTable ⟨"a", "z", "c", "5", "confirmed"⟩).id
    ∧ (generateMeta parseTable ⟨"a", "s", "c", "5", "confirmed"⟩).id
        ≠ (generateMeta parseTable ⟨"a", "s", "c", "7", "confirmed"⟩).id :=
  ⟨⟨rfl, rfl, rfl, rfl, by decide⟩,
    (dedupe_id_deterministic parseTable ⟨"a", "s", "c", "5", "confirmed"⟩
      ⟨"a", "z", "c", "5", "confirmed"⟩ rfl).1 rfl,
    (dedupe_id_deterministic parseTable ⟨"a", "s", "c", "5", "confirmed"⟩
      ⟨"a", "s", "c", "7", "confirmed"⟩ rfl).2 5 7 rfl rfl (by decide)⟩

/-- C3: for every inbound push notification whose channel-id header is not
among the persisted channel ids of the watched calendars, the handler
performs no `list`/`fullSync` network call and emits no event: it returns
with the store unchanged and empty call and emit traces. -/
theorem unknown_channel_noop (parse : String → Option Int) (newOnly : Bool)
    (env : ApiEnv) (calendarIds : List String) (db : Db) (chHdr stHdr : JVal)
    (fuel : Nat)
    (h : chHdr ∉ calendarIds.map (fun c => db.get (c ++ ".channelId"))) :
    runNotification parse newOnly env calendarIds db chHdr stHdr fuel
      = some ⟨db, [], [], []⟩ := by
  have hc : (calendarIds.map (fun c => db.get (c ++ ".channelId"))).contains chHdr
      = false := by simpa using h
  simp only [runNotification, hc, Bool.not_false, if_true]

/-- C8: for a notification with a known channel id the handler branches on
the resource-state header: any value other than `"exists"` (including
`"not_exists"`, `"sync"`, a missing header, or an unrecognized string) makes
the invocation return with no fetch and no emission; exactly `"exists"`
proceeds to the delta fetch loop (`processCalendars`). -/
theorem resource_state_dispatch (parse : String → Option Int) (newOnly : Bool)
    (env : ApiEnv) (calendarIds : List String) (db : Db) (chHdr stHdr : JVal)
    (fuel : Nat)
    (h : chHdr ∈ calendarIds.map (fun c => db.get (c ++ ".channelId"))) :
    (stHdr ≠ .str "exists" →
      runNotification parse newOnly env calendarIds db chHdr stHdr fuel
        = some ⟨db, [], [], []⟩)
    ∧ (stHdr = .str "exists" →
      runNotification parse newOnly env calendarIds db chHdr stHdr fuel
        = match processCalendars parse newOnly env fuel calendarIds db 0 with
          | none => none
          | some (db', calls, emits, sets) => some ⟨db', calls, emits, sets⟩) := by
  have hc : (calendarIds.map (fun c => db.get (c ++ ".channelId"))).contains chHdr
      = true := by simpa using h
  constructor
  · intro hne
    simp only [runNotification, hc, Bool.not_true]
    rw [if_neg (by simp)]
    split
    · exact absurd rfl hne
    · rfl
    · rfl
    · rfl
  · intro he
    subst he
    simp only [runNotification, hc, Bool.not_true]
    rw [if_neg (by simp)]

/-- A concrete store with no persisted state, used by witnesses. -/
def dbW : Db := fun _ => JVal.undef

/-- A concrete store with one persisted channel id, used by witnesses. -/
def dbW1 : Db := Db.set dbW ("cal" ++ ".channelId") (.str "ch")

/-- A concrete environment whose `list` immediately returns a final page,
used by witnesses. -/
def envW : ApiEnv :=
  ⟨fun _ => ⟨"w", "wr", "9"⟩, fun _ => .undef, fun _ _ => 204,
    fun _ _ _ _ => ⟨200, [], .undef, .str "tok"⟩⟩

/-- Witness for C3 at a concrete unknown channel id. -/
theorem unknown_channel_noop_witness :
    (JVal.str "other" ∉ List.map (fun c => dbW.get (c ++ ".channelId")) ["cal"])
    ∧ runNotification parseTable false envW ["cal"] dbW (.str "other") (.str "exists") 1
      = some ⟨dbW, [], [], []⟩ :=
  ⟨by decide, unknown_channel_noop parseTable false envW ["cal"] dbW _ _ 1 (by decide)⟩

/-- Witness for C8 at a known channel id and the `"sync"` resource state. -/
theorem resource_state_dispatch_witness :
    (JVal.str "ch" ∈ List.map (fun c => dbW1.get (c ++ ".channelId")) ["cal"])
    ∧ ((JVal.str "sync" ≠ JVal.str "exists" →
        runNotification parseTable false envW ["cal"] dbW1 (.str "ch") (.str "sync") 1
          = some ⟨dbW1, [], [], []⟩)
      ∧ (JVal.str "sync" = JVal.str "exists" →
        runNotification parseTable false envW ["cal"] dbW1 (.str "ch") (.str "sync") 1
          = match processCalendars parseTable false envW 1 ["cal"] dbW1 0 with
            | none => none
            | some (db', calls, emits, sets) => some ⟨db', calls, emits, sets⟩)) :=
  ⟨by decide,
    resource_state_dispatch parseTable false envW ["cal"] dbW1 (.str "ch") (.str "sync") 1
      (by decide)⟩

/-- Store for the C1 scenario: one calendar `"cal"` with an active old
channel `("oldCh", "oldRes")`, sync token `"tokOld"` and expiration 1000. -/
def dbC1 : Db :=
  (((dbW.set ("cal" ++ ".nextSyncToken") (.str "tokOld")).set
    ("cal" ++ ".channelId") (.str "oldCh")).set
    ("cal" ++ ".resourceId") (.str "oldRes")).set
    ("cal" ++ ".expiration") (.str "1000")

/-- Environment for the C1 scenario: `watch` returns a fresh channel
`("newCh", "newRes")` and `stop` succeeds with 204. -/
def envC1 : ApiEnv :=
  ⟨fun _ => ⟨"newCh", "newRes", "9999"⟩, fun _ => .str "tokNew", fun _ _ => 204,
    fun _ _ _ _ => ⟨200, [], .undef, .undef⟩⟩

/-- C1, evaluated at a failing input.  With expiration `T = 1000` and a one
second interval, a tick at `now = 0` (`now + intervalMillis ≤ T`) performs no
renewal, as the claim says.  But a tick at `now = 500` refutes the claim's
renewal ordering: after `makeWatchRequest` persists the new channel, the
subsequent `stopWatchRequest` re-reads the persisted ids and therefore stops
the NEW channel `("newCh", "newRes")`; the old channel `("oldCh", "oldRes")`
is never stopped, and since `stop` returns 204 the persisted state ends up
cleared to `null` rather than holding the new channel's state. -/
theorem renewal_tick_evaluation :
    (runTimer parseTable envC1 ["cal"] dbC1 0 1).2 = []
    ∧ (runTimer parseTable envC1 ["cal"] dbC1 500 1).2
        = [.watch "cal", .fullSync (some "cal"), .stop "newCh" "newRes"]
    ∧ Call.stop "oldCh" "oldRes" ∉ (runTimer parseTable envC1 ["cal"] dbC1 500 1).2
    ∧ (runTimer parseTable envC1 ["cal"] dbC1 500 1).1.get ("cal" ++ ".channelId")
        = .null
    ∧ (runTimer parseTable envC1 ["cal"] dbC1 500 1).1.get ("cal" ++ ".expiration")
        = .null := by
  decide

/-- First page item for the C2 scenario. -/
def e1C2 : GEvent := ⟨"ev1", "first", "0", "1", "confirmed"⟩

/-- Third page item for the C2 scenario (the page after the invalidation). -/
def e3C2 : GEvent := ⟨"ev3", "third", "0", "3", "confirmed"⟩

/-- Store for the C2 scenario: calendar `"cal"` with sync token `"oldTok"`
and channel id `"ch"`. -/
def dbC2 : Db :=
  (dbW.set ("cal" ++ ".nextSyncToken") (.str "oldTok")).set
    ("cal" ++ ".channelId") (.str "ch")

/-- Environment for the C2 scenario: a 3-page feed whose second request
returns status 410.  `fullSync` answers `"freshTok"` when called with the
undefined calendar id (`none`) and `"calTok"` when called with a real
calendar id, so the two can be told apart in the result. -/
def envC2 : ApiEnv :=
  ⟨fun _ => ⟨"w", "wr", "9"⟩,
    fun c => match c with
      | none => .str "freshTok"
      | some _ => .str "calTok",
    fun _ _ => 204,
    fun idx _ _ _ =>
      if idx = 0 then ⟨200, [e1C2], .str "page2", .undef⟩
      else if idx = 1 then ⟨410, [], .undef, .undef⟩
      else ⟨200, [e3C2], .undef, .str "tok3"⟩⟩

/-- C2, evaluated at a failing input.  With a 3-page feed whose second
request returns 410: exactly page 1's items are emitted, no later page is
fetched, pagination stops after the invalidated request, and the result of
the recovery `fullSync` is persisted as the calendar's new sync token — all
as the claim says.  But the recovery resync is NOT performed for the same
resource: the code passes the undefined `this.calendarId`, so the trace
holds `fullSync none` (answered `"freshTok"`) and never
`fullSync (some "cal")`. -/
theorem pagination_invalidation_evaluation :
    ((runNotification parseTable false envC2 ["cal"] dbC2 (.str "ch") (.str "exists") 5).map
        RunOutcome.calls
      = some [.list "cal" (.str "oldTok") .null,
          .list "cal" (.str "oldTok") (.str "page2"), .fullSync none])
    ∧ ((runNotification parseTable false envC2 ["cal"] dbC2 (.str "ch") (.str "exists") 5).map
        RunOutcome.emits
      = some [(e1C2, generateMeta parseTable e1C2)])
    ∧ ((runNotification parseTable false envC2 ["cal"] dbC2 (.str "ch") (.str "exists") 5).map
        (fun r => r.db.get ("cal" ++ ".nextSyncToken"))
      = some (.str "freshTok"))
    ∧ ((runNotification parseTable false envC2 ["cal"] dbC2 (.str "ch") (.str "exists") 5).map
        (fun r => r.calls.contains (Call.fullSync (some "cal")))
      = some false)
    ∧ ((runNotification parseTable false envC2 ["cal"] dbC2 (.str "ch") (.str "exists") 5).map
        (fun r => r.emits.contains (e3C2, generateMeta parseTable e3C2))
      = some false) := by
  decide

/-- The pagination loop always records the `list` request it opens with. -/
theorem paginate_first_call (parse : String → Option Int) (newOnly : Bool) (env : ApiEnv)
    (c : String) (st : JVal) (fuel idx : Nat) (pt : JVal) (res : PageResult)
    (h : paginate parse newOnly env c st fuel idx pt = some res) :
    Call.list c st pt ∈ res.calls := by
  cases fuel with
  | zero => simp [paginate] at h
  | succ f =>
    simp only [paginate] at h
    split at h
    · cases h; simp
    · split at h
      · cases h; simp
      · split at h
        · exact absurd h (by simp)
        · cases h; simp

/-- Every calendar in the list processed by the fetch loop gets a `list`
request and a persisted `nextSyncToken`. -/
theorem processCalendars_covers (parse : String → Option Int) (newOnly : Bool)
    (env : ApiEnv) (fuel : Nat) :
    ∀ (ids : List String) (db : Db) (idx : Nat)
      (out : Db × List Call × List (GEvent × EventMeta) × List (String × JVal)),
      processCalendars parse newOnly env fuel ids db idx = some out →
      ∀ c ∈ ids, (∃ st pt, Call.list c st pt ∈ out.2.1)
        ∧ ∃ v, (c ++ ".nextSyncToken", v) ∈ out.2.2.2 := by
  intro ids
  induction ids with
  | nil => intro db idx out h c hc; simp at hc
  | cons a rest ih =>
    intro db idx out h c hc
    simp only [processCalendars] at h
    split at h
    · exact absurd h (by simp)
    · next res hp =>
      split at h
      · exact absurd h (by simp)
      · next db2 calls2 emits2 sets2 hq =>
        cases h
        rcases List.mem_cons.mp hc with rfl | hc'
        · exact ⟨⟨db.get (c ++ ".nextSyncToken"), .null,
            List.mem_append_left _ (paginate_first_call parse newOnly env c _ fuel idx _ res hp)⟩,
            ⟨res.token, List.mem_cons_self _ _⟩⟩
        · obtain ⟨⟨st, pt, hm⟩, v, hv⟩ := ih _ _ _ hq c hc'
          exact ⟨⟨st, pt, List.mem_append_right _ hm⟩, ⟨v, List.mem_cons_of_mem _ hv⟩⟩

/-- C9: for a valid inbound notification (known channel id, resource state
`"exists"`), the delta fetch loop runs over every configured calendar id —
not only the calendar whose channel produced the notification — performing a
`list` request for each and re-persisting each calendar's sync token. -/
theorem all_calendars_fetched (parse : String → Option Int) (newOnly : Bool)
    (env : ApiEnv) (calendarIds : List String) (db : Db) (chHdr : JVal) (fuel : Nat)
    (out : RunOutcome)
    (hch : chHdr ∈ calendarIds.map (fun c => db.get (c ++ ".channelId")))
    (hrun : runNotification parse newOnly env calendarIds db chHdr (.str "exists") fuel
      = some out) :
    ∀ c ∈ calendarIds,
      (∃ st pt, Call.list c st pt ∈ out.calls)
      ∧ ∃ v, (c ++ ".nextSyncToken", v) ∈ out.sets := by
  have hc : (calendarIds.map (fun c => db.get (c ++ ".channelId"))).contains chHdr
      = true := by simpa using hch
  simp only [runNotification, hc, Bool.not_true] at hrun
  rw [if_neg (by simp)] at hrun
  have hrun' : (match processCalendars parse newOnly env fuel calendarIds db 0 with
      | none => none
      | some (db', calls, emits, sets) =>
        some (⟨db', calls, emits, sets⟩ : RunOutcome)) = some out := hrun
  split at hrun'
  · exact absurd hrun' (by simp)
  · next db' calls emits sets hq =>
    cases hrun'
    intro c hcm
    obtain ⟨⟨st, pt, hm⟩, v, hv⟩ :=
      processCalendars_covers parse newOnly env fuel calendarIds db 0
        (db', calls, emits, sets) hq c hcm
    exact ⟨⟨st, pt, hm⟩, ⟨v, hv⟩⟩

/-- The outcome of the C9 witness scenario. -/
def outC9 : RunOutcome :=
  ⟨(dbW1.set ("cal" ++ ".nextSyncToken") (.str "tok")).set
      ("cal2" ++ ".nextSyncToken") (.str "tok"),
    [.list "cal" .undef .null, .list "cal2" .undef .null], [],
    [("cal" ++ ".nextSyncToken", .str "tok"), ("cal2" ++ ".nextSyncToken", .str "tok")]⟩

/-- Witness for C9: two calendars, notification on the first one's channel;
both calendars are fetched and both tokens re-persisted. -/
theorem all_calendars_fetched_witness :
    (JVal.str "ch" ∈ List.map (fun c => dbW1.get (c ++ ".channelId")) ["cal", "cal2"])
    ∧ runNotification parseTable false envW ["cal", "cal2"] dbW1 (.str "ch")
        (.str "exists") 1 = some outC9
    ∧ ∀ c ∈ ["cal", "cal2"],
        (∃ st pt, Call.list c st pt ∈ outC9.calls)
        ∧ ∃ v, (c ++ ".nextSyncToken", v) ∈ outC9.sets :=
  ⟨by decide, by rfl,
    all_calendars_fetched parseTable false envW ["cal", "cal2"] dbW1 (.str "ch") 1
      outC9 (by decide) (by rfl)⟩
/-- A `list` response that stops the pagination loop: an invalidation status
(410) or a non-empty (truthy) `nextSyncToken`. -/
def terminalResp (r : ListResp) : Bool := (r.status == 410) || r.nextSyncToken.truthy

/-- C10: (a) the per-calendar pagination loop terminates whenever some later
response (the `n`-th request from the current one, whatever page token it is
asked with) is terminal — carries status 410 or a non-empty `nextSyncToken` —
and the fuel covers it; (b) a response carrying neither a `nextPageToken`
nor a `nextSyncToken` nor a 410 status does not stop the loop: the loop
recurses, issuing a further `list` request. -/
theorem pagination_termination (parse : String → Option Int) (newOnly : Bool)
    (env : ApiEnv) (cal : String) (st : JVal) :
    (∀ n idx pt fuel, n < fuel →
      (∀ q, terminalResp (env.list (idx + n) cal st q) = true) →
      (paginate parse newOnly env cal st fuel idx pt).isSome = true)
    ∧ (∀ idx pt fuel,
      (env.list idx cal st pt).status ≠ 410 →
      (env.list idx cal st pt).nextSyncToken.truthy = false →
      (env.list idx cal st pt).nextPageToken.truthy = false →
      paginate parse newOnly env cal st (fuel + 1) idx pt
        = match paginate parse newOnly env cal st fuel (idx + 1)
            (env.list idx cal st pt).nextPageToken with
          | none => none
          | some res => some ⟨res.token,
              .list cal st pt :: res.calls,
              projectEvents parse newOnly (env.list idx cal st pt).items ++ res.emits,
              res.nextIdx⟩) := by
  constructor
  · intro n
    induction n with
    | zero =>
      intro idx pt fuel hf hterm
      obtain ⟨f, rfl⟩ : ∃ f, fuel = f + 1 := ⟨fuel - 1, by omega⟩
      have ht := hterm pt
      rw [Nat.add_zero] at ht
      simp only [paginate]
      by_cases h410 : (env.list idx cal st pt).status = 410
      · simp [h410]
      · have htr : (env.list idx cal st pt).nextSyncToken.truthy = true := by
          simp only [terminalResp, Bool.or_eq_true, beq_iff_eq] at ht
          tauto
        simp [h410, htr]
    | succ n ih =>
      intro idx pt fuel hf hterm
      obtain ⟨f, rfl⟩ : ∃ f, fuel = f + 1 := ⟨fuel - 1, by omega⟩
      simp only [paginate]
      by_cases h410 : (env.list idx cal st pt).status = 410
      · simp [h410]
      · by_cases htr : (env.list idx cal st pt).nextSyncToken.truthy = true
        · simp [h410, htr]
        · have hrec := ih (idx + 1) (env.list idx cal st pt).nextPageToken f
            (by omega)
            (by
              intro q
              have := hterm q
              rw [show idx + (n + 1) = idx + 1 + n from by omega] at this
              exact this)
          simp only [h410, if_false, htr, Bool.false_eq_true]
          cases hp : paginate parse newOnly env cal st f (idx + 1)
              (env.list idx cal st pt).nextPageToken with
          | none => rw [hp] at hrec; simp at hrec
          | some res => simp [hp]
  · intro idx pt fuel h410 htok _
    simp only [paginate]
    rw [if_neg h410, if_neg (by simp [htok])]
/-- Environment for the C10 witness: the first request returns a page with
no tokens at all (which must not stop the loop), the second is terminal. -/
def envC10 : ApiEnv :=
  ⟨fun _ => ⟨"w", "wr", "9"⟩, fun _ => .undef, fun _ _ => 204,
    fun idx _ _ _ =>
      if idx = 0 then ⟨200, [], .undef, .undef⟩ else ⟨200, [], .undef, .str "tok2"⟩⟩

/-- Witness for C10: with a token-less first response and a terminal second
response, the loop is still running after the first request (part b) and
terminates within fuel 2 (part a). -/
theorem pagination_termination_witness :
    ((1 : Nat) < 2
      ∧ (∀ q, terminalResp (envC10.list (0 + 1) "cal" .undef q) = true)
      ∧ (envC10.list 0 "cal" .undef .null).status ≠ 410
      ∧ (envC10.list 0 "cal" .undef .null).nextSyncToken.truthy = false
      ∧ (envC10.list 0 "cal" .undef .null).nextPageToken.truthy = false)
    ∧ (paginate parseTable false envC10 "cal" .undef 2 0 .null).isSome = true
    ∧ paginate parseTable false envC10 "cal" .undef (1 + 1) 0 .null
        = match paginate parseTable false envC10 "cal" .undef 1 (0 + 1)
            (envC10.list 0 "cal" .undef .null).nextPageToken with
          | none => none
          | some res => some ⟨res.token,
              .list "cal" .undef .null :: res.calls,
              projectEvents parseTable false (envC10.list 0 "cal" .undef .null).items
                ++ res.emits,
              res.nextIdx⟩ :=
  ⟨⟨by omega, fun _ => rfl, by decide, by decide, by decide⟩,
    (pagination_termination parseTable false envC10 "cal" .undef).1 1 0 .null 2
      (by omega) (fun _ => rfl),
    (pagination_termination parseTable false envC10 "cal" .undef).2 0 .null 1
      (by decide) (by decide) (by decide)⟩
/-- A string that is not empty has `isEmpty = false`. -/
theorem isEmpty_false_of_ne {s : String} (h : s ≠ "") : s.isEmpty = false := by
  cases he : s.isEmpty
  · rfl
  · exact absurd ((String.isEmpty_iff s).mp he) h

/-- If two appended lists agree, their suffixes agree on the last
`min` of their lengths elements. -/
theorem append_eq_take_rev {a b s t : List Char} (h : a ++ s = b ++ t) :
    s.reverse.take (min s.length t.length)
      = t.reverse.take (min s.length t.length) := by
  have hr : s.reverse ++ a.reverse = t.reverse ++ b.reverse := by
    simpa [List.reverse_append] using congrArg List.reverse h
  have h1 : (s.reverse ++ a.reverse).take (min s.length t.length)
      = s.reverse.take (min s.length t.length) :=
    List.take_append_of_le_length (by simp)
  have h2 : (t.reverse ++ b.reverse).take (min s.length t.length)
      = t.reverse.take (min s.length t.length) :=
    List.take_append_of_le_length (by simp)
  rw [← h1, hr, h2]

/-- The four per-calendar store keys are collision-free: two composed keys
are equal only when both the calendar id and the field suffix agree. -/
theorem watch_key_inj {c c' s s' : String}
    (hs : s ∈ [".nextSyncToken", ".channelId", ".resourceId", ".expiration"])
    (hs' : s' ∈ [".nextSyncToken", ".channelId", ".resourceId", ".expiration"])
    (h : c ++ s = c' ++ s') : c = c' ∧ s = s' := by
  have hd : c.data ++ s.data = c'.data ++ s'.data := by
    have := congrArg String.data h
    simpa [string_data_append] using this
  fin_cases hs <;> fin_cases hs' <;>
    first
      | exact ⟨string_append_right_cancel h, rfl⟩
      | exact absurd (append_eq_take_rev hd) (by decide)
/-- After clearing the four keys of calendar `a`, the keys of a different
calendar `c` are unchanged. -/
theorem db_after_clear_other {db : Db} {a c : String} (hne : c ≠ a) {s : String}
    (hs : s ∈ [".nextSyncToken", ".channelId", ".resourceId", ".expiration"]) :
    (((((db.set (a ++ ".nextSyncToken") .null).set (a ++ ".channelId") .null).set
        (a ++ ".resourceId") .null).set (a ++ ".expiration") .null) : Db).get (c ++ s)
      = db.get (c ++ s) := by
  have key : ∀ s' ∈ [".nextSyncToken", ".channelId", ".resourceId", ".expiration"],
      (c ++ s) ≠ (a ++ s') := fun s' hs' he => hne (watch_key_inj hs hs' he).1
  simp [Db.get, Db.set, key ".nextSyncToken" (by simp), key ".channelId" (by simp),
    key ".resourceId" (by simp), key ".expiration" (by simp)]

/-- After clearing the four keys of calendar `a`, each of them reads `null`. -/
theorem db_after_clear_own {db : Db} {a : String} :
    let db' : Db := ((((db.set (a ++ ".nextSyncToken") .null).set
        (a ++ ".channelId") .null).set
        (a ++ ".resourceId") .null).set
        (a ++ ".expiration") .null)
    db'.get (a ++ ".nextSyncToken") = .null ∧ db'.get (a ++ ".channelId") = .null
      ∧ db'.get (a ++ ".resourceId") = .null ∧ db'.get (a ++ ".expiration") = .null := by
  have key : ∀ s1 s2 : String, s1 ≠ s2 → (a ++ s1) ≠ (a ++ s2) :=
    fun s1 s2 h12 he => h12 (string_append_left_cancel he)
  refine ⟨?_, ?_, ?_, ?_⟩ <;>
    simp [Db.get, Db.set,
      key ".nextSyncToken" ".channelId" (by decide),
      key ".nextSyncToken" ".resourceId" (by decide),
      key ".nextSyncToken" ".expiration" (by decide),
      key ".channelId" ".resourceId" (by decide),
      key ".channelId" ".expiration" (by decide),
      key ".resourceId" ".expiration" (by decide),
      key ".channelId" ".nextSyncToken" (by decide),
      key ".resourceId" ".nextSyncToken" (by decide),
      key ".expiration" ".nextSyncToken" (by decide),
      key ".resourceId" ".channelId" (by decide),
      key ".expiration" ".channelId" (by decide),
      key ".expiration" ".resourceId" (by decide)]

/-- `stopWatchRequest` over calendars not containing `c` leaves `c`'s four
keys unchanged. -/
theorem stopWatchRequest_other (env : ApiEnv) :
    ∀ (ids : List String) (db : Db) (c s : String),
      s ∈ [".nextSyncToken", ".channelId", ".resourceId", ".expiration"] →
      c ∉ ids →
      (stopWatchRequest env ids db).1.get (c ++ s) = db.get (c ++ s) := by
  intro ids
  induction ids with
  | nil => intro db c s hs hnm; rfl
  | cons a rest ih =>
    intro db c s hs hnm
    have hca : c ≠ a := fun he => hnm (he ▸ List.mem_cons_self a rest)
    have hcr : c ∉ rest := fun he => hnm (List.mem_cons_of_mem a he)
    rcases hidv : db.get (a ++ ".channelId") with _ | _ | i <;>
      rcases hridv : db.get (a ++ ".resourceId") with _ | _ | r <;>
      simp only [stopWatchRequest, hidv, hridv] <;>
      try exact ih db c s hs hcr
    by_cases hg : (!i.isEmpty && !r.isEmpty) = true
    · rw [if_pos hg]
      by_cases h204 : env.stop i r = 204
      · rw [if_pos h204, ih _ c s hs hcr]
        exact db_after_clear_other hca hs
      · rw [if_neg h204]
        exact ih db c s hs hcr
    · rw [if_neg hg]
      exact ih db c s hs hcr
/-- C7: for every watched resource with truthy persisted channel ids,
`stopWatchRequest` issues the stop RPC, clears the four persisted fields
(to `null`) iff the RPC returns 204, and on any other status leaves all four
fields unchanged (the failure is non-fatal: the remaining calendars are
still processed and no error is raised). -/
theorem teardown_iff (env : ApiEnv) :
    ∀ (ids : List String) (db : Db) (c i r : String),
      ids.Nodup → c ∈ ids →
      db.get (c ++ ".channelId") = .str i → i ≠ "" →
      db.get (c ++ ".resourceId") = .str r → r ≠ "" →
      Call.stop i r ∈ (stopWatchRequest env ids db).2
      ∧ (env.stop i r = 204 →
          ((stopWatchRequest env ids db).1.get (c ++ ".nextSyncToken") = .null
          ∧ (stopWatchRequest env ids db).1.get (c ++ ".channelId") = .null
          ∧ (stopWatchRequest env ids db).1.get (c ++ ".resourceId") = .null
          ∧ (stopWatchRequest env ids db).1.get (c ++ ".expiration") = .null))
      ∧ (env.stop i r ≠ 204 →
          ((stopWatchRequest env ids db).1.get (c ++ ".nextSyncToken")
              = db.get (c ++ ".nextSyncToken")
          ∧ (stopWatchRequest env ids db).1.get (c ++ ".channelId") = .str i
          ∧ (stopWatchRequest env ids db).1.get (c ++ ".resourceId") = .str r
          ∧ (stopWatchRequest env ids db).1.get (c ++ ".expiration")
              = db.get (c ++ ".expiration"))) := by
  intro ids
  induction ids with
  | nil => intro db c i r _ hc; simp at hc
  | cons a rest ih =>
    intro db c i r hnd hc hid hi hrid hr
    have hnda : a ∉ rest := (List.nodup_cons.mp hnd).1
    have hndr : rest.Nodup := (List.nodup_cons.mp hnd).2
    rcases List.mem_cons.mp hc with rfl | hcr
    · have hgi : i.isEmpty = false := isEmpty_false_of_ne hi
      have hgr : r.isEmpty = false := isEmpty_false_of_ne hr
      simp only [stopWatchRequest, hid, hrid]
      rw [if_pos (show (!i.isEmpty && !r.isEmpty) = true by simp [hgi, hgr])]
      by_cases h204 : env.stop i r = 204
      · rw [if_pos h204]
        refine ⟨List.mem_cons_self _ _, fun _ => ?_, fun hne => absurd h204 hne⟩
        have hobt := @db_after_clear_own db c
        exact ⟨by rw [stopWatchRequest_other env rest _ c _ (by simp) hnda]
                  exact hobt.1,
          by rw [stopWatchRequest_other env rest _ c _ (by simp) hnda]
             exact hobt.2.1,
          by rw [stopWatchRequest_other env rest _ c _ (by simp) hnda]
             exact hobt.2.2.1,
          by rw [stopWatchRequest_other env rest _ c _ (by simp) hnda]
             exact hobt.2.2.2⟩
      · rw [if_neg h204]
        refine ⟨List.mem_cons_self _ _, fun he => absurd he h204, fun _ => ?_⟩
        refine ⟨?_, ?_, ?_, ?_⟩ <;>
          rw [stopWatchRequest_other env rest db c _ (by simp) hnda]
        · exact hid
        · exact hrid
    · have hca : c ≠ a := fun he => hnda (he ▸ hcr)
      rcases hidv : db.get (a ++ ".channelId") with _ | _ | i' <;>
        rcases hridv : db.get (a ++ ".resourceId") with _ | _ | r' <;>
        simp only [stopWatchRequest, hidv, hridv] <;>
        try exact ih db c i r hndr hcr hid hi hrid hr
      by_cases hg : (!i'.isEmpty && !r'.isEmpty) = true
      · rw [if_pos hg]
        by_cases ha204 : env.stop i' r' = 204
        · rw [if_pos ha204]
          have hid4 : ((((((db.set (a ++ ".nextSyncToken") .null).set
              (a ++ ".channelId") .null).set
              (a ++ ".resourceId") .null).set
              (a ++ ".expiration") .null)) : Db).get (c ++ ".channelId") = .str i := by
            rw [db_after_clear_other hca (by simp)]; exact hid
          have hrid4 : ((((((db.set (a ++ ".nextSyncToken") .null).set
              (a ++ ".channelId") .null).set
              (a ++ ".resourceId") .null).set
              (a ++ ".expiration") .null)) : Db).get (c ++ ".resourceId") = .str r := by
            rw [db_after_clear_other hca (by simp)]; exact hrid
          have H := ih _ c i r hndr hcr hid4 hi hrid4 hr
          refine ⟨List.mem_cons_of_mem _ H.1, H.2.1, fun h2 => ?_⟩
          obtain ⟨x1, x2, x3, x4⟩ := H.2.2 h2
          refine ⟨?_, x2, x3, ?_⟩
          · rw [x1, db_after_clear_other hca (by simp)]
          · rw [x4, db_after_clear_other hca (by simp)]
        · rw [if_neg ha204]
          have H := ih db c i r hndr hcr hid hi hrid hr
          exact ⟨List.mem_cons_of_mem _ H.1, H.2.1, H.2.2⟩
      · rw [if_neg hg]
        exact ih db c i r hndr hcr hid hi hrid hr
/-- Environment whose `stop` fails with status 500, for the C7 witness. -/
def envC7b : ApiEnv :=
  ⟨fun _ => ⟨"w", "wr", "9"⟩, fun _ => .undef, fun _ _ => 500,
    fun _ _ _ _ => ⟨200, [], .undef, .undef⟩⟩

/-- Witness for C7: with `stop` returning 204 the channel record of `"cal"`
is cleared; with `stop` returning 500 it is left untouched. -/
theorem teardown_iff_witness :
    (["cal"].Nodup ∧ "cal" ∈ ["cal"]
      ∧ dbC1.get ("cal" ++ ".channelId") = .str "oldCh" ∧ "oldCh" ≠ ""
      ∧ dbC1.get ("cal" ++ ".resourceId") = .str "oldRes" ∧ "oldRes" ≠ "")
    ∧ (envC1.stop "oldCh" "oldRes" = 204
      ∧ (stopWatchRequest envC1 ["cal"] dbC1).1.get ("cal" ++ ".channelId") = .null
      ∧ (stopWatchRequest envC1 ["cal"] dbC1).1.get ("cal" ++ ".expiration") = .null)
    ∧ (envC7b.stop "oldCh" "oldRes" ≠ 204
      ∧ (stopWatchRequest envC7b ["cal"] dbC1).1.get ("cal" ++ ".channelId")
          = .str "oldCh"
      ∧ (stopWatchRequest envC7b ["cal"] dbC1).1.get ("cal" ++ ".expiration")
          = dbC1.get ("cal" ++ ".expiration")) :=
  ⟨⟨by decide, by decide, by decide, by decide, by decide, by decide⟩,
    ⟨rfl,
      ((teardown_iff envC1 ["cal"] dbC1 "cal" "oldCh" "oldRes" (by decide) (by decide)
        (by decide) (by decide) (by decide) (by decide)).2.1 rfl).2.1,
      ((teardown_iff envC1 ["cal"] dbC1 "cal" "oldCh" "oldRes" (by decide) (by decide)
        (by decide) (by decide) (by decide) (by decide)).2.1 rfl).2.2.2⟩,
    ⟨by decide,
      ((teardown_iff envC7b ["cal"] dbC1 "cal" "oldCh" "oldRes" (by decide) (by decide)
        (by decide) (by decide) (by decide) (by decide)).2.2 (by decide)).2.1,
      ((teardown_iff envC7b ["cal"] dbC1 "cal" "oldCh" "oldRes" (by decide) (by decide)
        (by decide) (by decide) (by decide) (by decide)).2.2 (by decide)).2.2.2⟩⟩
